import Mathlib

/-
Verification of the temporal-synchronization and precompute engine of the
videogames_utils repository (courtois-neuromod/videogames_utils).

The development embeds, as executable Lean definitions, the code of

  * src/videogames_utils/gui/glassbrain_widget.py
      - the inline clock conversions of GlassBrainWidget.update_position,
      - the artifact read path of GlassBrainWidget.update_position,
      - GlassBrainWidget._start_precompute / _poll_futures / _stop_precompute
        / load_timeseries, as a transition system over an explicit state,
  * src/videogames_utils/replay.py (replay_bk2 / get_variables_from_replay),
  * src/videogames_utils/gui/utils.py (load_annotated_events),
  * src/videogames_utils/gui/events_widget.py (EventsWidget.update_position),
  * src/videogames_utils/gui/physio_widget.py (the per-window normalization).

Times, durations and pixel values are modelled as rationals; Python's int()
truncation is modelled explicitly by pyInt.
-/

/-- Python int() applied to a nonnegative-or-negative rational: truncation
towards zero.  For the nonnegative times occurring in the widget this agrees
with the floor. -/
def pyInt (q : ℚ) : ℤ := if q < 0 then ⌈q⌉ else ⌊q⌋

/-- Clock conversion of GlassBrainWidget.update_position:
time_in_replay = frame_idx / fps; time_in_run = time_in_replay + onset_time. -/
def frameToRunTime (frame_idx : ℕ) (fps onset_time : ℚ) : ℚ :=
  (frame_idx : ℚ) / fps + onset_time

/-- Clock conversion of GlassBrainWidget.update_position:
tr_index_float = time_in_run / tr; current_tr = int(tr_index_float);
alpha = tr_index_float - current_tr.  Returns (current_tr, alpha). -/
def runTimeToVolume (t tr : ℚ) : ℤ × ℚ :=
  let tif := t / tr
  let current_tr := pyInt tif
  (current_tr, tif - current_tr)

theorem pyInt_of_nonneg {q : ℚ} (h : 0 ≤ q) : pyInt q = ⌊q⌋ := by
  simp [pyInt, not_lt.mpr h]

theorem frameToRunTime_nonneg {f : ℕ} {fps onset : ℚ} (hfps : 0 < fps)
    (honset : 0 ≤ onset) : 0 ≤ frameToRunTime f fps onset := by
  have h1 : (0 : ℚ) ≤ (f : ℚ) / fps := div_nonneg (by positivity) hfps.le
  simpa [frameToRunTime] using add_nonneg h1 honset

/-- C2: the clock conversions are exact.  The run-relative time is
onset_time + frame_idx/fps, the volume index is the floor of time/tr (the
Python int() truncation agrees with the floor since the time is nonnegative),
and the fractional offset is time/tr - floor(time/tr), which lies in [0, 1). -/
theorem clock_conversions_exact (f : ℕ) (fps onset tr : ℚ)
    (hfps : 0 < fps) (honset : 0 ≤ onset) (htr : 0 < tr) :
    frameToRunTime f fps onset = onset + (f : ℚ) / fps ∧
    (runTimeToVolume (frameToRunTime f fps onset) tr).1 =
      ⌊frameToRunTime f fps onset / tr⌋ ∧
    (runTimeToVolume (frameToRunTime f fps onset) tr).2 =
      frameToRunTime f fps onset / tr - ⌊frameToRunTime f fps onset / tr⌋ ∧
    0 ≤ (runTimeToVolume (frameToRunTime f fps onset) tr).2 ∧
    (runTimeToVolume (frameToRunTime f fps onset) tr).2 < 1 := by
  have ht : 0 ≤ frameToRunTime f fps onset := frameToRunTime_nonneg hfps honset
  have hq : 0 ≤ frameToRunTime f fps onset / tr := div_nonneg ht htr.le
  have hfloor : pyInt (frameToRunTime f fps onset / tr) =
      ⌊frameToRunTime f fps onset / tr⌋ := pyInt_of_nonneg hq
  refine ⟨by rw [frameToRunTime, add_comm], ?_, ?_, ?_, ?_⟩
  · simpa [runTimeToVolume] using hfloor
  · simp [runTimeToVolume, hfloor]
  · simp only [runTimeToVolume, hfloor]
    exact sub_nonneg.mpr (Int.floor_le _)
  · simp only [runTimeToVolume, hfloor]
    have := Int.lt_floor_add_one (frameToRunTime f fps onset / tr)
    linarith

/-- C2 witness, Scenario 1 of the spec: fps = 60, onset_time = 10.0,
repetition_time = 1.49, frame 0 gives run time 10.0 s, volume index 6 and
fractional offset 106/149 which is within 0.0001 of 0.7114. -/
theorem clock_conversions_exact_witness :
    frameToRunTime 0 60 10 = 10 ∧
    (runTimeToVolume (frameToRunTime 0 60 10) (149/100)).1 = 6 ∧
    (runTimeToVolume (frameToRunTime 0 60 10) (149/100)).2 = 106/149 ∧
    |(runTimeToVolume (frameToRunTime 0 60 10) (149/100)).2 - 7114/10000| <
      1/10000 ∧
    0 ≤ (runTimeToVolume (frameToRunTime 0 60 10) (149/100)).2 ∧
    (runTimeToVolume (frameToRunTime 0 60 10) (149/100)).2 < 1 := by
  have h := clock_conversions_exact 0 60 10 (149/100)
    (by norm_num) (by norm_num) (by norm_num)
  refine ⟨?_, ?_, ?_, ?_, h.2.2.2.1, h.2.2.2.2⟩ <;>
    norm_num [frameToRunTime, runTimeToVolume, pyInt, abs_lt]

/-- C3: the composed mapping from frame index to volume index is monotone:
for fps > 0, onset >= 0, tr > 0 and frame indices f1 <= f2, the volume index
at f1 is at most the volume index at f2. -/
theorem volume_index_monotone (f1 f2 : ℕ) (fps onset tr : ℚ)
    (hfps : 0 < fps) (honset : 0 ≤ onset) (htr : 0 < tr) (hf : f1 ≤ f2) :
    (runTimeToVolume (frameToRunTime f1 fps onset) tr).1 ≤
      (runTimeToVolume (frameToRunTime f2 fps onset) tr).1 := by
  have ht1 := @frameToRunTime_nonneg f1 fps onset hfps honset
  have ht2 := @frameToRunTime_nonneg f2 fps onset hfps honset
  have hc : (f1 : ℚ) ≤ (f2 : ℚ) := by exact_mod_cast hf
  have hmono : frameToRunTime f1 fps onset ≤ frameToRunTime f2 fps onset := by
    simp only [frameToRunTime]
    gcongr
  have h1 := pyInt_of_nonneg (div_nonneg ht1 htr.le)
  have h2 := pyInt_of_nonneg (div_nonneg ht2 htr.le)
  simp only [runTimeToVolume, h1, h2]
  exact Int.floor_le_floor (by gcongr)

/-- C3 witness: concrete instance at fps = 60, onset = 10, tr = 1.49,
frames 0 <= 600. -/
theorem volume_index_monotone_witness :
    (runTimeToVolume (frameToRunTime 0 60 10) (149/100)).1 ≤
      (runTimeToVolume (frameToRunTime 600 60 10) (149/100)).1 :=
  volume_index_monotone 0 600 60 10 (149/100)
    (by norm_num) (by norm_num) (by norm_num) (by norm_num)

/-- Range start and end computed by GlassBrainWidget._start_precompute:
start_tr = int(onset_time / tr); end_tr = int((onset_time + duration) / tr) + 2
when the replay duration is known, else len(timeseries); then
start_tr = max(0, start_tr) and end_tr = min(end_tr, len(timeseries)). -/
def startPrecomputeRange (onset_time : ℚ) (replay_duration : Option ℚ)
    (tr : ℚ) (numVolumes : ℕ) : ℤ × ℤ :=
  let start_tr := pyInt (onset_time / tr)
  let end_tr := match replay_duration with
    | some d => pyInt ((onset_time + d) / tr) + 2
    | none => (numVolumes : ℤ)
  (max 0 start_tr, min end_tr (numVolumes : ℤ))

/-- Integer interval [a, b) as a list, modelling Python range(a, b). -/
def rangeZ (a b : ℤ) : List ℤ :=
  (List.range (b - a).toNat).map (fun (k : ℕ) => a + (k : ℤ))

/-- Volume indices submitted by _start_precompute, one per loop iteration of
`for tr_idx in range(start_tr, end_tr)`. -/
def submittedTRs (onset_time : ℚ) (replay_duration : Option ℚ)
    (tr : ℚ) (numVolumes : ℕ) : List ℤ :=
  let r := startPrecomputeRange onset_time replay_duration tr numVolumes
  rangeZ r.1 r.2

theorem mem_rangeZ {a b i : ℤ} : i ∈ rangeZ a b ↔ a ≤ i ∧ i < b := by
  unfold rangeZ
  rw [List.mem_map]
  constructor
  · rintro ⟨k, hk, rfl⟩
    rw [List.mem_range] at hk
    omega
  · intro h
    refine ⟨(i - a).toNat, ?_, by omega⟩
    rw [List.mem_range]
    omega

theorem nodup_rangeZ (a b : ℤ) : (rangeZ a b).Nodup :=
  List.Nodup.map (fun x y h => by omega) (List.nodup_range _)

theorem count_rangeZ (a b i : ℤ) :
    (rangeZ a b).count i = if a ≤ i ∧ i < b then 1 else 0 := by
  by_cases h : a ≤ i ∧ i < b
  · rw [if_pos h]
    exact List.count_eq_one_of_mem (nodup_rangeZ a b) (mem_rangeZ.mpr h)
  · rw [if_neg h]
    exact List.count_eq_zero_of_not_mem (fun hm => h (mem_rangeZ.mp hm))

/-- C4: the precompute index range is [floor(onset/tr), floor((onset+dur)/tr)+2]
clamped to [0, numVolumes); when the replay duration is unknown the end equals
numVolumes; and exactly one compute task is submitted per volume index in the
resulting range (count 1 inside, count 0 outside). -/
theorem precompute_range_and_tasks (onset_time : ℚ) (replay_duration : Option ℚ)
    (tr : ℚ) (numVolumes : ℕ) (honset : 0 ≤ onset_time) (htr : 0 < tr)
    (hdur : ∀ d, replay_duration = some d → 0 ≤ d) :
    (startPrecomputeRange onset_time replay_duration tr numVolumes).1 =
      max 0 ⌊onset_time / tr⌋ ∧
    (∀ d, replay_duration = some d →
      (startPrecomputeRange onset_time replay_duration tr numVolumes).2 =
        min (⌊(onset_time + d) / tr⌋ + 2) (numVolumes : ℤ)) ∧
    (replay_duration = none →
      (startPrecomputeRange onset_time replay_duration tr numVolumes).2 =
        (numVolumes : ℤ)) ∧
    (∀ i : ℤ, (submittedTRs onset_time replay_duration tr numVolumes).count i =
      if (startPrecomputeRange onset_time replay_duration tr numVolumes).1 ≤ i ∧
         i < (startPrecomputeRange onset_time replay_duration tr numVolumes).2
      then 1 else 0) := by
  have hstart : pyInt (onset_time / tr) = ⌊onset_time / tr⌋ :=
    pyInt_of_nonneg (div_nonneg honset htr.le)
  refine ⟨?_, ?_, ?_, ?_⟩
  · simp [startPrecomputeRange, hstart]
  · intro d hd
    have hdnn : 0 ≤ d := hdur d hd
    have : pyInt ((onset_time + d) / tr) = ⌊(onset_time + d) / tr⌋ :=
      pyInt_of_nonneg (div_nonneg (by linarith) htr.le)
    simp [startPrecomputeRange, hd, this]
  · intro hd
    simp [startPrecomputeRange, hd]
  · intro i
    exact count_rangeZ _ _ i

/-- C4 witness: onset 10 s, duration 30 s, tr 1.49 s, 50 volumes: the submitted
range is [6, 28); index 6 is submitted exactly once and index 50 never. -/
theorem precompute_range_and_tasks_witness :
    (startPrecomputeRange 10 (some 30) (149/100) 50).1 = 6 ∧
    (startPrecomputeRange 10 (some 30) (149/100) 50).2 = 28 ∧
    (submittedTRs 10 (some 30) (149/100) 50).count 6 = 1 ∧
    (submittedTRs 10 (some 30) (149/100) 50).count 50 = 0 := by
  have h := precompute_range_and_tasks 10 (some 30) (149/100) 50
    (by norm_num) (by norm_num) (by rintro d ⟨rfl⟩; norm_num)
  have h1 : (startPrecomputeRange 10 (some 30) (149/100) 50).1 = 6 := by
    rw [h.1]
    norm_num
  have h2 : (startPrecomputeRange 10 (some 30) (149/100) 50).2 = 28 := by
    rw [h.2.1 30 rfl]
    norm_num
  refine ⟨h1, h2, ?_, ?_⟩
  · rw [h.2.2.2 6, if_pos (by rw [h1, h2]; norm_num)]
  · rw [h.2.2.2 50, if_neg (by rw [h1, h2]; norm_num)]

/-- Rendered visual artifact: a fixed-shape pixel buffer, modelled as a list
of rational pixel intensities. -/
abbrev Artifact := List ℚ

/-- Pixel-wise blend cv2.addWeighted(current_brain, 1 - alpha, next_brain,
alpha, 0) used by GlassBrainWidget.update_position. -/
def blendImages (current_brain next_brain : Artifact) (alpha : ℚ) : Artifact :=
  List.zipWith (fun x y => (1 - alpha) * x + alpha * y) current_brain next_brain

/-- Status of one entry of GlassBrainWidget.futures: still running, finished
with a result, or finished by raising an error. -/
inductive FutStatus where
  | pending : FutStatus
  | done : Artifact → FutStatus
  | failed : FutStatus
deriving DecidableEq

/-- One entry of the GlassBrainWidget.futures dict (tr_index -> future).
The recTag field is a ghost annotation recording which load submitted it;
the code does not store it, and no definition branches on it. -/
structure FutureTask where
  recTag : ℕ
  idx : ℤ
  status : FutStatus
deriving DecidableEq

/-- One entry of GlassBrainWidget.brain_cache (tr_index -> numpy image).
The recTag field is a ghost annotation naming the recording that produced the
artifact; no definition branches on it. -/
structure CacheEntry where
  recTag : ℕ
  idx : ℤ
  img : Artifact
deriving DecidableEq

/-- Dictionary lookup `self.brain_cache[i]` / `i in self.brain_cache`. -/
def cacheLookup (cache : List CacheEntry) (i : ℤ) : Option Artifact :=
  (cache.find? (fun e => e.idx == i)).map (fun e => e.img)

theorem cacheLookup_eq_none {cache : List CacheEntry} {i : ℤ} :
    cacheLookup cache i = none ↔ ∀ e ∈ cache, e.idx ≠ i := by
  simp [cacheLookup, List.find?_eq_none]

theorem cacheLookup_some {cache : List CacheEntry} {i : ℤ} {a : Artifact}
    (h : cacheLookup cache i = some a) :
    ∃ e ∈ cache, e.idx = i ∧ e.img = a := by
  simp only [cacheLookup, Option.map_eq_some'] at h
  obtain ⟨e, he, rfl⟩ := h
  refine ⟨e, List.mem_of_find?_eq_some he, ?_, rfl⟩
  have := List.find?_some he
  simpa using this

/-- Result of one call to GlassBrainWidget.update_position:
out-of-range early return, the "Computing TR i..." placeholder text, or a
displayed image. -/
inductive UpdateOutcome where
  | outOfRange : UpdateOutcome
  | computing : ℤ → UpdateOutcome
  | shown : Artifact → UpdateOutcome
deriving DecidableEq

/-- Artifact read path of GlassBrainWidget.update_position (lines 349-392):
computes current_tr, next_tr and alpha from the frame index, returns early if
current_tr is out of range, otherwise resolves a displayable image from
brain_cache and last_displayed_brain.  Returns the outcome together with the
new value of last_displayed_brain. -/
def updatePosition (frame_idx : ℕ) (fps onset_time tr : ℚ) (numVolumes : ℕ)
    (cache : List CacheEntry) (lastDisplayed : Option Artifact) :
    UpdateOutcome × Option Artifact :=
  let v := runTimeToVolume (frameToRunTime frame_idx fps onset_time) tr
  let current_tr := v.1
  let next_tr := current_tr + 1
  let alpha := v.2
  if (numVolumes : ℤ) ≤ current_tr then (.outOfRange, lastDisplayed)
  else
    match cacheLookup cache current_tr with
    | none =>
      match lastDisplayed with
      | none => (.computing current_tr, none)
      | some img => (.shown img, some img)
    | some current_brain =>
      let brain_img :=
        if 1/100 < alpha ∧ next_tr < (numVolumes : ℤ) then
          match cacheLookup cache next_tr with
          | some next_brain => blendImages current_brain next_brain alpha
          | none => current_brain
        else current_brain
      (.shown brain_img, some brain_img)

/-- C1: precedence of the artifact read path.  Under the scheduler invariant
that every cached index is a valid volume index, and for an in-range position:
if the floor index is cached and alpha exceeds 0.01 and the ceil index is
cached, the result is the per-pixel blend (ceil weighted by alpha) and it is
recorded as last displayed; else if the floor index is cached that artifact is
returned as-is and recorded as last displayed; else a previously displayed
artifact, if any, is returned unblended; else the call signals that the
volume is not yet available. -/
theorem artifact_read_path_precedence (frame_idx : ℕ) (fps onset_time tr : ℚ)
    (numVolumes : ℕ) (cache : List CacheEntry) (lastDisplayed : Option Artifact)
    (i : ℤ) (alpha : ℚ)
    (hi : (runTimeToVolume (frameToRunTime frame_idx fps onset_time) tr).1 = i)
    (ha : (runTimeToVolume (frameToRunTime frame_idx fps onset_time) tr).2 = alpha)
    (hval : ∀ e ∈ cache, e.idx < (numVolumes : ℤ))
    (hbound : i < (numVolumes : ℤ)) :
    (∀ cur nxt, cacheLookup cache i = some cur → 1/100 < alpha →
      cacheLookup cache (i + 1) = some nxt →
      updatePosition frame_idx fps onset_time tr numVolumes cache lastDisplayed =
        (.shown (blendImages cur nxt alpha), some (blendImages cur nxt alpha))) ∧
    (∀ cur, cacheLookup cache i = some cur →
      (alpha ≤ 1/100 ∨ cacheLookup cache (i + 1) = none) →
      updatePosition frame_idx fps onset_time tr numVolumes cache lastDisplayed =
        (.shown cur, some cur)) ∧
    (∀ img, cacheLookup cache i = none → lastDisplayed = some img →
      updatePosition frame_idx fps onset_time tr numVolumes cache lastDisplayed =
        (.shown img, some img)) ∧
    (cacheLookup cache i = none → lastDisplayed = none →
      updatePosition frame_idx fps onset_time tr numVolumes cache lastDisplayed =
        (.computing i, none)) := by
  refine ⟨?_, ?_, ?_, ?_⟩
  · intro cur nxt hcur halpha hnxt
    obtain ⟨e, he, hei, _⟩ := cacheLookup_some hnxt
    have hlt : i + 1 < (numVolumes : ℤ) := hei ▸ hval e he
    simp only [updatePosition, hi, ha]
    rw [if_neg (not_le.mpr hbound), hcur]
    dsimp only
    rw [if_pos (And.intro halpha hlt), hnxt]
  · intro cur hcur hside
    simp only [updatePosition, hi, ha]
    rw [if_neg (not_le.mpr hbound), hcur]
    dsimp only
    rcases hside with h | h
    · rw [if_neg (fun hc => (not_lt.mpr h) hc.1)]
    · by_cases hc : 1/100 < alpha ∧ i + 1 < (numVolumes : ℤ)
      · rw [if_pos hc, h]
      · rw [if_neg hc]
  · intro img hmiss hlast
    simp only [updatePosition, hi]
    rw [if_neg (not_le.mpr hbound), hmiss, hlast]
  · intro hmiss hlast
    simp only [updatePosition, hi]
    rw [if_neg (not_le.mpr hbound), hmiss, hlast]

/-- C1 witness, Scenarios 2 and 3 of the spec: with volumes 6 and 7 cached as
A = [0, 100] and B = [100, 0], a query at alpha = 0.5 yields the 50/50 blend
[50, 50]; a query at alpha = 0.005 yields A unchanged; with an empty cache and
no previous display the query reports that volume 6 is not yet available. -/
theorem artifact_read_path_precedence_witness :
    updatePosition 390 60 0 1 10
        [⟨0, 6, [0, 100]⟩, ⟨0, 7, [100, 0]⟩] none =
      (.shown [50, 50], some [50, 50]) ∧
    updatePosition 6005 1000 0 1 10
        [⟨0, 6, [0, 100]⟩, ⟨0, 7, [100, 0]⟩] none =
      (.shown [0, 100], some [0, 100]) ∧
    updatePosition 390 60 0 1 10 [] none = (.computing 6, none) := by
  have hv1 : runTimeToVolume (frameToRunTime 390 60 0) 1 = (6, 1/2) := by
    norm_num [frameToRunTime, runTimeToVolume, pyInt]
  have hv2 : runTimeToVolume (frameToRunTime 6005 1000 0) 1 = (6, 1/200) := by
    norm_num [frameToRunTime, runTimeToVolume, pyInt]
  have hc6 : cacheLookup [⟨0, 6, [0, 100]⟩, ⟨0, 7, [100, 0]⟩] 6 =
      some [0, 100] := by rfl
  have hc7 : cacheLookup [⟨0, 6, [0, 100]⟩, ⟨0, 7, [100, 0]⟩] 7 =
      some [100, 0] := by rfl
  have hval : ∀ e ∈ [(⟨0, 6, [0, 100]⟩ : CacheEntry), ⟨0, 7, [100, 0]⟩],
      e.idx < ((10 : ℕ) : ℤ) := by decide
  have h1 := artifact_read_path_precedence 390 60 0 1 10
    [⟨0, 6, [0, 100]⟩, ⟨0, 7, [100, 0]⟩] none 6 (1/2)
    (by rw [hv1]) (by rw [hv1]) hval (by norm_num)
  have h2 := artifact_read_path_precedence 6005 1000 0 1 10
    [⟨0, 6, [0, 100]⟩, ⟨0, 7, [100, 0]⟩] none 6 (1/200)
    (by rw [hv2]) (by rw [hv2]) hval (by norm_num)
  have h3 := artifact_read_path_precedence 390 60 0 1 10 [] none 6 (1/2)
    (by rw [hv1]) (by rw [hv1]) (by intro e he; cases he) (by norm_num)
  have hblend : blendImages [0, 100] [100, 0] (1/2) = [50, 50] := by
    norm_num [blendImages]
  refine ⟨?_, ?_, ?_⟩
  · have := h1.1 [0, 100] [100, 0] hc6 (by norm_num) (by exact hc7)
    rw [hblend] at this
    exact this
  · exact h2.2.1 [0, 100] hc6 (Or.inl (by norm_num))
  · exact h3.2.2.2 rfl rfl

/-- Mutable state of GlassBrainWidget relevant to the precompute scheduler.
recId is a ghost label naming the currently loaded recording; waited is a
ghost flag recording whether a blocking executor.shutdown(wait=True) was ever
issued (the code only ever passes wait=False). -/
structure WidgetState where
  recId : ℕ
  numVolumes : ℕ
  brainCache : List CacheEntry
  lastDisplayed : Option Artifact
  futures : List FutureTask
  executorAlive : Bool
  pollTimerOn : Bool
  waited : Bool
  errorLog : List ℤ
deriving DecidableEq

/-- Model of self.executor.shutdown(wait=...): the pool is discarded; the
ghost waited flag records whether the call blocked. -/
def shutdownExecutor (wait : Bool) (s : WidgetState) : WidgetState :=
  { s with executorAlive := false, waited := s.waited || wait }

/-- GlassBrainWidget._stop_precompute: stop the poll timer; if the executor
exists, cancel and clear all pending futures and shut the pool down with
wait=False, cancel_futures=True. -/
def stopPrecompute (s : WidgetState) : WidgetState :=
  let s1 := { s with pollTimerOn := false }
  if s1.executorAlive then shutdownExecutor false { s1 with futures := [] }
  else s1

/-- GlassBrainWidget.load_timeseries followed by _start_precompute: stop any
existing precompute, clear brain_cache and last_displayed_brain, store the
new recording, create a fresh executor, submit one pending task per volume
index of the computed range, and start the poll timer. -/
def loadTimeseries (r : ℕ) (onset_time : ℚ) (replay_duration : Option ℚ)
    (tr : ℚ) (numVolumes : ℕ) (s : WidgetState) : WidgetState :=
  let s1 := stopPrecompute s
  let s2 := { s1 with brainCache := [], lastDisplayed := none,
                      recId := r, numVolumes := numVolumes }
  { s2 with
    executorAlive := true,
    futures := (submittedTRs onset_time replay_duration tr numVolumes).map
      (fun i => ⟨r, i, FutStatus.pending⟩),
    pollTimerOn := true }

/-- Loop body of GlassBrainWidget._poll_futures over the futures dict, with
max_per_cycle = 2: returns (futures kept, cache insertions in order, error
indices printed).  A completed result is cached and counted; after the second
cached result the loop breaks; a failed future is removed and its error
logged without counting toward the per-cycle limit. -/
def pollScan : List FutureTask → ℕ → List FutureTask × List CacheEntry × List ℤ
  | [], _ => ([], [], [])
  | f :: rest, processed =>
    match f.status with
    | .pending =>
      let r := pollScan rest processed
      (f :: r.1, r.2.1, r.2.2)
    | .done img =>
      if 2 ≤ processed + 1 then (rest, [⟨f.recTag, f.idx, img⟩], [])
      else
        let r := pollScan rest (processed + 1)
        (r.1, ⟨f.recTag, f.idx, img⟩ :: r.2.1, r.2.2)
    | .failed =>
      let r := pollScan rest processed
      (r.1, r.2.1, f.idx :: r.2.2)

/-- GlassBrainWidget._poll_futures: if no futures remain the timer stops;
otherwise completed futures are drained (at most two successful results per
cycle), results are added to brain_cache, failures are logged and dropped,
and when the last future is drained _on_precompute_finished shuts the pool
down with wait=False. -/
def pollFutures (s : WidgetState) : WidgetState :=
  if s.futures.isEmpty then { s with pollTimerOn := false }
  else
    let r := pollScan s.futures 0
    let s1 := { s with futures := r.1,
                       brainCache := s.brainCache ++ r.2.1,
                       errorLog := s.errorLog ++ r.2.2 }
    if r.1.isEmpty then shutdownExecutor false { s1 with pollTimerOn := false }
    else s1

/-- Iterated polling: n timer ticks of _poll_futures. -/
def pollIter : ℕ → WidgetState → WidgetState
  | 0, s => s
  | n + 1, s => pollFutures (pollIter n s)

/-- Transitions that can happen after a load: a worker finishes a task with a
result, a worker task raises, or the UI timer fires _poll_futures. -/
inductive WorkerStep : WidgetState → WidgetState → Prop where
  | taskDone (s : WidgetState) (l1 : List FutureTask) (f : FutureTask)
      (l2 : List FutureTask) (img : Artifact) :
      s.futures = l1 ++ f :: l2 → f.status = .pending →
      WorkerStep s { s with futures := l1 ++ { f with status := .done img } :: l2 }
  | taskFailed (s : WidgetState) (l1 : List FutureTask) (f : FutureTask)
      (l2 : List FutureTask) :
      s.futures = l1 ++ f :: l2 → f.status = .pending →
      WorkerStep s { s with futures := l1 ++ { f with status := .failed } :: l2 }
  | poll (s : WidgetState) : WorkerStep s (pollFutures s)

theorem pollScan_nil (n : ℕ) : pollScan [] n = ([], [], []) := rfl

theorem pollScan_pending {g : FutureTask} (rest : List FutureTask) (n : ℕ)
    (h : g.status = .pending) :
    pollScan (g :: rest) n =
      (g :: (pollScan rest n).1, (pollScan rest n).2.1,
        (pollScan rest n).2.2) := by
  rw [pollScan, h]

theorem pollScan_done_break {g : FutureTask} {img : Artifact}
    (rest : List FutureTask) (n : ℕ) (h : g.status = .done img)
    (hn : 2 ≤ n + 1) :
    pollScan (g :: rest) n = (rest, [⟨g.recTag, g.idx, img⟩], []) := by
  rw [pollScan, h]
  dsimp only
  rw [if_pos hn]

theorem pollScan_done_go {g : FutureTask} {img : Artifact}
    (rest : List FutureTask) (n : ℕ) (h : g.status = .done img)
    (hn : ¬ 2 ≤ n + 1) :
    pollScan (g :: rest) n =
      ((pollScan rest (n + 1)).1,
        ⟨g.recTag, g.idx, img⟩ :: (pollScan rest (n + 1)).2.1,
        (pollScan rest (n + 1)).2.2) := by
  rw [pollScan, h]
  dsimp only
  rw [if_neg hn]

theorem pollScan_failed {g : FutureTask} (rest : List FutureTask) (n : ℕ)
    (h : g.status = .failed) :
    pollScan (g :: rest) n =
      ((pollScan rest n).1, (pollScan rest n).2.1,
        g.idx :: (pollScan rest n).2.2) := by
  rw [pollScan, h]

theorem pollScan_kept_mem {fs : List FutureTask} {n : ℕ} :
    ∀ f ∈ (pollScan fs n).1, f ∈ fs := by
  induction fs generalizing n with
  | nil => simp [pollScan_nil]
  | cons g rest ih =>
    intro f h
    rcases hst : g.status with _ | img | _
    · rw [pollScan_pending rest n hst, List.mem_cons] at h
      rcases h with h | h
      · exact h ▸ List.mem_cons_self _ _
      · exact List.mem_cons_of_mem _ (ih _ h)
    · by_cases hn : 2 ≤ n + 1
      · rw [pollScan_done_break rest n hst hn] at h
        exact List.mem_cons_of_mem _ h
      · rw [pollScan_done_go rest n hst hn] at h
        exact List.mem_cons_of_mem _ (ih _ h)
    · rw [pollScan_failed rest n hst] at h
      exact List.mem_cons_of_mem _ (ih _ h)

theorem pollScan_entry_source {fs : List FutureTask} {n : ℕ} :
    ∀ e ∈ (pollScan fs n).2.1, ∃ f ∈ fs,
      f.recTag = e.recTag ∧ f.idx = e.idx ∧ f.status = .done e.img := by
  induction fs generalizing n with
  | nil => simp [pollScan_nil]
  | cons g rest ih =>
    intro e h
    rcases hst : g.status with _ | img | _
    · rw [pollScan_pending rest n hst] at h
      obtain ⟨f, hf, hp⟩ := ih _ h
      exact ⟨f, List.mem_cons_of_mem _ hf, hp⟩
    · by_cases hn : 2 ≤ n + 1
      · rw [pollScan_done_break rest n hst hn, List.mem_singleton] at h
        exact ⟨g, List.mem_cons_self _ _, by subst h; exact ⟨rfl, rfl, hst⟩⟩
      · rw [pollScan_done_go rest n hst hn, List.mem_cons] at h
        rcases h with h | h
        · exact ⟨g, List.mem_cons_self _ _, by subst h; exact ⟨rfl, rfl, hst⟩⟩
        · obtain ⟨f, hf, hp⟩ := ih _ h
          exact ⟨f, List.mem_cons_of_mem _ hf, hp⟩
    · rw [pollScan_failed rest n hst] at h
      obtain ⟨f, hf, hp⟩ := ih _ h
      exact ⟨f, List.mem_cons_of_mem _ hf, hp⟩

theorem pollScan_failed_cases {fs : List FutureTask} {n : ℕ} :
    ∀ f ∈ fs, f.status = .failed →
      f ∈ (pollScan fs n).1 ∨ f.idx ∈ (pollScan fs n).2.2 := by
  induction fs generalizing n with
  | nil => intro f h; cases h
  | cons g rest ih =>
    intro f hmem hfst
    rcases List.mem_cons.mp hmem with rfl | hmem
    · rw [pollScan_failed rest n hfst]
      exact Or.inr (List.mem_cons_self _ _)
    · rcases hst : g.status with _ | img | _
      · rw [pollScan_pending rest n hst]
        rcases ih f hmem hfst with h | h
        · exact Or.inl (List.mem_cons_of_mem _ h)
        · exact Or.inr h
      · by_cases hn : 2 ≤ n + 1
        · rw [pollScan_done_break rest n hst hn]
          exact Or.inl hmem
        · rw [pollScan_done_go rest n hst hn]
          exact ih f hmem hfst
      · rw [pollScan_failed rest n hst]
        rcases ih f hmem hfst with h | h
        · exact Or.inl h
        · exact Or.inr (List.mem_cons_of_mem _ h)

theorem pollScan_nonfailed_cases {fs : List FutureTask} {n : ℕ} :
    ∀ f ∈ fs, f.status ≠ .failed →
      f ∈ (pollScan fs n).1 ∨ ∃ e ∈ (pollScan fs n).2.1, e.idx = f.idx := by
  induction fs generalizing n with
  | nil => intro f h; cases h
  | cons g rest ih =>
    intro f hmem hfst
    rcases List.mem_cons.mp hmem with rfl | hmem
    · rcases hst : f.status with _ | img | _
      · rw [pollScan_pending rest n hst]
        exact Or.inl (List.mem_cons_self _ _)
      · by_cases hn : 2 ≤ n + 1
        · rw [pollScan_done_break rest n hst hn]
          exact Or.inr ⟨⟨f.recTag, f.idx, img⟩, List.mem_singleton_self _, rfl⟩
        · rw [pollScan_done_go rest n hst hn]
          exact Or.inr ⟨⟨f.recTag, f.idx, img⟩, List.mem_cons_self _ _, rfl⟩
      · exact absurd hst hfst
    · rcases hst : g.status with _ | img | _
      · rw [pollScan_pending rest n hst]
        rcases ih f hmem hfst with h | ⟨e, he, hei⟩
        · exact Or.inl (List.mem_cons_of_mem _ h)
        · exact Or.inr ⟨e, he, hei⟩
      · by_cases hn : 2 ≤ n + 1
        · rw [pollScan_done_break rest n hst hn]
          exact Or.inl hmem
        · rw [pollScan_done_go rest n hst hn]
          rcases ih f hmem hfst with h | ⟨e, he, hei⟩
          · exact Or.inl h
          · exact Or.inr ⟨e, List.mem_cons_of_mem _ he, hei⟩
      · rw [pollScan_failed rest n hst]
        exact ih f hmem hfst

theorem pollFutures_futures_sub {t : WidgetState} :
    ∀ f ∈ (pollFutures t).futures, f ∈ t.futures := by
  intro f h
  by_cases h0 : t.futures.isEmpty
  · simp only [pollFutures, if_pos h0] at h
    exact h
  · simp only [pollFutures, if_neg h0] at h
    by_cases h1 : (pollScan t.futures 0).1.isEmpty
    · rw [if_pos h1] at h
      exact pollScan_kept_mem f h
    · rw [if_neg h1] at h
      exact pollScan_kept_mem f h

theorem pollFutures_cache_cases {t : WidgetState} :
    ∀ e ∈ (pollFutures t).brainCache, e ∈ t.brainCache ∨
      ∃ f ∈ t.futures, f.recTag = e.recTag ∧ f.idx = e.idx ∧
        f.status = .done e.img := by
  intro e h
  by_cases h0 : t.futures.isEmpty
  · simp only [pollFutures, if_pos h0] at h
    exact Or.inl h
  · simp only [pollFutures, if_neg h0] at h
    have hmem : e ∈ t.brainCache ++ (pollScan t.futures 0).2.1 := by
      by_cases h1 : (pollScan t.futures 0).1.isEmpty
      · rw [if_pos h1] at h
        exact h
      · rw [if_neg h1] at h
        exact h
    rcases List.mem_append.mp hmem with h2 | h2
    · exact Or.inl h2
    · exact Or.inr (pollScan_entry_source e h2)

theorem pollFutures_cache_mono {t : WidgetState} :
    ∀ e ∈ t.brainCache, e ∈ (pollFutures t).brainCache := by
  intro e h
  by_cases h0 : t.futures.isEmpty
  · simp only [pollFutures, if_pos h0]
    exact h
  · simp only [pollFutures, if_neg h0]
    by_cases h1 : (pollScan t.futures 0).1.isEmpty
    · rw [if_pos h1]
      exact List.mem_append_left _ h
    · rw [if_neg h1]
      exact List.mem_append_left _ h

theorem pollFutures_log_mono {t : WidgetState} :
    ∀ j ∈ t.errorLog, j ∈ (pollFutures t).errorLog := by
  intro j h
  by_cases h0 : t.futures.isEmpty
  · simp only [pollFutures, if_pos h0]
    exact h
  · simp only [pollFutures, if_neg h0]
    by_cases h1 : (pollScan t.futures 0).1.isEmpty
    · rw [if_pos h1]
      exact List.mem_append_left _ h
    · rw [if_neg h1]
      exact List.mem_append_left _ h

theorem pollFutures_waited (t : WidgetState) :
    (pollFutures t).waited = t.waited := by
  by_cases h0 : t.futures.isEmpty
  · simp only [pollFutures, if_pos h0]
  · simp only [pollFutures, if_neg h0]
    by_cases h1 : (pollScan t.futures 0).1.isEmpty
    · rw [if_pos h1]
      simp [shutdownExecutor]
    · rw [if_neg h1]

theorem pollFutures_failed_cases {t : WidgetState} :
    ∀ f ∈ t.futures, f.status = .failed →
      f ∈ (pollFutures t).futures ∨ f.idx ∈ (pollFutures t).errorLog := by
  intro f hmem hfst
  by_cases h0 : t.futures.isEmpty
  · rw [List.isEmpty_iff.mp h0] at hmem
    cases hmem
  · simp only [pollFutures, if_neg h0]
    by_cases h1 : (pollScan t.futures 0).1.isEmpty
    · rw [if_pos h1]
      rcases pollScan_failed_cases f hmem hfst with h | h
      · rw [List.isEmpty_iff.mp h1] at h
        cases h
      · exact Or.inr (List.mem_append_right _ h)
    · rw [if_neg h1]
      rcases pollScan_failed_cases f hmem hfst with h | h
      · exact Or.inl h
      · exact Or.inr (List.mem_append_right _ h)

theorem pollFutures_nonfailed_cases {t : WidgetState} :
    ∀ f ∈ t.futures, f.status ≠ .failed →
      f ∈ (pollFutures t).futures ∨
        ∃ e ∈ (pollFutures t).brainCache, e.idx = f.idx := by
  intro f hmem hfst
  by_cases h0 : t.futures.isEmpty
  · rw [List.isEmpty_iff.mp h0] at hmem
    cases hmem
  · simp only [pollFutures, if_neg h0]
    by_cases h1 : (pollScan t.futures 0).1.isEmpty
    · rw [if_pos h1]
      rcases pollScan_nonfailed_cases f hmem hfst with h | ⟨e, he, hei⟩
      · rw [List.isEmpty_iff.mp h1] at h
        cases h
      · exact Or.inr ⟨e, List.mem_append_right _ he, hei⟩
    · rw [if_neg h1]
      rcases pollScan_nonfailed_cases f hmem hfst with h | ⟨e, he, hei⟩
      · exact Or.inl h
      · exact Or.inr ⟨e, List.mem_append_right _ he, hei⟩

theorem loadTimeseries_brainCache (r : ℕ) (onset_time : ℚ)
    (replay_duration : Option ℚ) (tr : ℚ) (numVolumes : ℕ) (s : WidgetState) :
    (loadTimeseries r onset_time replay_duration tr numVolumes s).brainCache =
      [] := rfl

theorem loadTimeseries_futures (r : ℕ) (onset_time : ℚ)
    (replay_duration : Option ℚ) (tr : ℚ) (numVolumes : ℕ) (s : WidgetState) :
    (loadTimeseries r onset_time replay_duration tr numVolumes s).futures =
      (submittedTRs onset_time replay_duration tr numVolumes).map
        (fun i => ⟨r, i, FutStatus.pending⟩) := rfl

theorem loadTimeseries_waited (r : ℕ) (onset_time : ℚ)
    (replay_duration : Option ℚ) (tr : ℚ) (numVolumes : ℕ) (s : WidgetState) :
    (loadTimeseries r onset_time replay_duration tr numVolumes s).waited =
      s.waited := by
  unfold loadTimeseries stopPrecompute shutdownExecutor
  by_cases h : s.executorAlive <;> simp [h]

theorem workerStep_preserves_tags {r0 : ℕ} {w : Bool} {t u : WidgetState}
    (hstep : WorkerStep t u)
    (hc : ∀ e ∈ t.brainCache, e.recTag = r0)
    (hf : ∀ f ∈ t.futures, f.recTag = r0)
    (hw : t.waited = w) :
    (∀ e ∈ u.brainCache, e.recTag = r0) ∧
    (∀ f ∈ u.futures, f.recTag = r0) ∧ u.waited = w := by
  cases hstep with
  | taskDone l1 f l2 img hfut hfst =>
    refine ⟨hc, ?_, hw⟩
    intro g hg
    rcases List.mem_append.mp hg with h | h
    · exact hf g (by rw [hfut]; exact List.mem_append_left _ h)
    · rcases List.mem_cons.mp h with rfl | h
      · exact hf f
          (by rw [hfut]; exact List.mem_append_right _ (List.mem_cons_self _ _))
      · exact hf g
          (by rw [hfut]; exact List.mem_append_right _ (List.mem_cons_of_mem _ h))
  | taskFailed l1 f l2 hfut hfst =>
    refine ⟨hc, ?_, hw⟩
    intro g hg
    rcases List.mem_append.mp hg with h | h
    · exact hf g (by rw [hfut]; exact List.mem_append_left _ h)
    · rcases List.mem_cons.mp h with rfl | h
      · exact hf f
          (by rw [hfut]; exact List.mem_append_right _ (List.mem_cons_self _ _))
      · exact hf g
          (by rw [hfut]; exact List.mem_append_right _ (List.mem_cons_of_mem _ h))
  | poll =>
    refine ⟨?_, ?_, ?_⟩
    · intro e he
      rcases pollFutures_cache_cases e he with h | ⟨f, hfm, h1, _, _⟩
      · exact hc e h
      · rw [← h1]
        exact hf f hfm
    · intro f hfm
      exact hf f (pollFutures_futures_sub f hfm)
    · rw [pollFutures_waited]
      exact hw

/-- C5: loading a new recording cancels the old precompute and isolates the
new cache.  Starting from any widget state, after load_timeseries for
recording r the cache is empty and the load itself never issues a blocking
shutdown (waited is unchanged; the code always passes wait=False); in every
state reachable from the load by worker completions, worker failures or poll
ticks, every cache entry and every pending task belongs to recording r (so no
artifact of the old recording can ever appear), and still no blocking wait
has been performed. -/
theorem load_cancels_and_isolates (s : WidgetState) (r : ℕ) (onset_time : ℚ)
    (replay_duration : Option ℚ) (tr : ℚ) (numVolumes : ℕ) (s' : WidgetState)
    (hreach : Relation.ReflTransGen WorkerStep
      (loadTimeseries r onset_time replay_duration tr numVolumes s) s') :
    (loadTimeseries r onset_time replay_duration tr numVolumes s).brainCache
      = [] ∧
    (∀ e ∈ s'.brainCache, e.recTag = r) ∧
    (∀ f ∈ s'.futures, f.recTag = r) ∧
    s'.waited = s.waited := by
  refine ⟨loadTimeseries_brainCache r onset_time replay_duration tr numVolumes s,
    ?_⟩
  induction hreach with
  | refl =>
    refine ⟨?_, ?_, loadTimeseries_waited r onset_time replay_duration tr
      numVolumes s⟩
    · rw [loadTimeseries_brainCache]
      intro e he
      cases he
    · rw [loadTimeseries_futures]
      intro f hf
      obtain ⟨j, _, rfl⟩ := List.mem_map.mp hf
      rfl
  | tail hsteps hstep ih =>
    exact workerStep_preserves_tags hstep ih.1 ih.2.1 ih.2.2

/-- C5 witness: concrete prior state holding an artifact, a displayed image
and a pending task of recording 0; loading recording 1 empties the cache and
performs no blocking wait. -/
theorem load_cancels_and_isolates_witness :
    (loadTimeseries 1 10 (some 30) (149/100) 50
      ⟨0, 10, [⟨0, 3, [1]⟩], some [1], [⟨0, 4, FutStatus.pending⟩],
        true, true, false, []⟩).brainCache = [] ∧
    (loadTimeseries 1 10 (some 30) (149/100) 50
      ⟨0, 10, [⟨0, 3, [1]⟩], some [1], [⟨0, 4, FutStatus.pending⟩],
        true, true, false, []⟩).waited = false := by
  have h := load_cancels_and_isolates
    ⟨0, 10, [⟨0, 3, [1]⟩], some [1], [⟨0, 4, FutStatus.pending⟩],
      true, true, false, []⟩
    1 10 (some 30) (149/100) 50 _ Relation.ReflTransGen.refl
  exact ⟨h.1, h.2.2.2⟩

theorem updatePosition_not_cached (frame_idx : ℕ) (fps onset_time tr : ℚ)
    (numVols : ℕ) (cache : List CacheEntry) (last : Option Artifact) (i : ℤ)
    (hi : (runTimeToVolume (frameToRunTime frame_idx fps onset_time) tr).1 = i)
    (hbound : i < (numVols : ℤ)) (hmiss : cacheLookup cache i = none) :
    updatePosition frame_idx fps onset_time tr numVols cache last =
      (match last with
        | none => (UpdateOutcome.computing i, none)
        | some img => (UpdateOutcome.shown img, some img)) := by
  cases last <;>
    (simp only [updatePosition, hi]; rw [if_neg (not_le.mpr hbound), hmiss])

/-- C6: a worker task failure for volume index i is collected by a poll step
that logs the error and removes the task; across any number of poll ticks the
index is never cached (so it is permanently unavailable and never retried: no
new task is ever created), the other tasks of the batch are unaffected
(a non-failed task either remains queued or its artifact is cached), and
every artifact lookup whose floor volume index is i behaves exactly as for a
not-yet-computed index: it shows the last displayed artifact if any and
otherwise reports that the volume is still being computed, without crashing. -/
theorem failed_volume_never_cached (s : WidgetState) (i : ℤ) (n : ℕ)
    (hfail : ∀ f ∈ s.futures, f.idx = i → f.status = FutStatus.failed)
    (hmiss : cacheLookup s.brainCache i = none) :
    cacheLookup (pollIter n s).brainCache i = none ∧
    (∀ f ∈ (pollIter n s).futures, f ∈ s.futures) ∧
    (∀ f ∈ s.futures, f.idx = i →
      f ∈ (pollIter n s).futures ∨ i ∈ (pollIter n s).errorLog) ∧
    (∀ f ∈ s.futures, f.status ≠ FutStatus.failed →
      f ∈ (pollIter n s).futures ∨
        ∃ e ∈ (pollIter n s).brainCache, e.idx = f.idx) ∧
    (∀ frame_idx : ℕ, ∀ fps onset_time tr : ℚ, ∀ numVols : ℕ,
      ∀ last : Option Artifact,
      (runTimeToVolume (frameToRunTime frame_idx fps onset_time) tr).1 = i →
      i < (numVols : ℤ) →
      updatePosition frame_idx fps onset_time tr numVols
          (pollIter n s).brainCache last =
        (match last with
          | none => (UpdateOutcome.computing i, none)
          | some img => (UpdateOutcome.shown img, some img))) := by
  have key : ∀ m : ℕ, (∀ e ∈ (pollIter m s).brainCache, e.idx ≠ i) ∧
      (∀ f ∈ (pollIter m s).futures, f ∈ s.futures) := by
    intro m
    induction m with
    | zero => exact ⟨cacheLookup_eq_none.mp hmiss, fun f h => h⟩
    | succ m ih =>
      constructor
      · intro e he
        rcases pollFutures_cache_cases e he with h | ⟨f, hfm, _, h2, h3⟩
        · exact ih.1 e h
        · intro hei
          have hst := hfail f (ih.2 f hfm) (by rw [h2, hei])
          rw [hst] at h3
          exact FutStatus.noConfusion h3
      · intro f hf
        exact ih.2 f (pollFutures_futures_sub f hf)
  have hmiss' : cacheLookup (pollIter n s).brainCache i = none :=
    cacheLookup_eq_none.mpr (key n).1
  have key3 : ∀ m : ℕ, ∀ f ∈ s.futures, f.idx = i →
      f ∈ (pollIter m s).futures ∨ i ∈ (pollIter m s).errorLog := by
    intro m
    induction m with
    | zero => exact fun f hf _ => Or.inl hf
    | succ m ih =>
      intro f hf hidx
      rcases ih f hf hidx with h | h
      · rcases pollFutures_failed_cases f h (hfail f hf hidx) with h2 | h2
        · exact Or.inl h2
        · exact Or.inr (hidx ▸ h2)
      · exact Or.inr (pollFutures_log_mono i h)
  have key4 : ∀ m : ℕ, ∀ f ∈ s.futures, f.status ≠ FutStatus.failed →
      f ∈ (pollIter m s).futures ∨
        ∃ e ∈ (pollIter m s).brainCache, e.idx = f.idx := by
    intro m
    induction m with
    | zero => exact fun f hf _ => Or.inl hf
    | succ m ih =>
      intro f hf hfst
      rcases ih f hf hfst with h | ⟨e, he, hei⟩
      · rcases pollFutures_nonfailed_cases f h hfst with h2 | ⟨e, he, hei⟩
        · exact Or.inl h2
        · exact Or.inr ⟨e, he, hei⟩
      · exact Or.inr ⟨e, pollFutures_cache_mono e he, hei⟩
  refine ⟨hmiss', (key n).2, key3 n, key4 n, ?_⟩
  intro frame_idx fps onset_time tr numVols last hi hbound
  exact updatePosition_not_cached frame_idx fps onset_time tr numVols _ last i
    hi hbound hmiss'

/-- C6 witness: with the task for volume 42 failed and one pending task for
volume 5, after three poll ticks volume 42 is still absent from the cache and
a lookup resolving to volume 42 reports that it is not yet available. -/
theorem failed_volume_never_cached_witness :
    cacheLookup (pollIter 3
      ⟨0, 50, [], none, [⟨0, 42, FutStatus.failed⟩, ⟨0, 5, FutStatus.pending⟩],
        true, true, false, []⟩).brainCache 42 = none ∧
    updatePosition 42 1 0 1 50 (pollIter 3
      ⟨0, 50, [], none, [⟨0, 42, FutStatus.failed⟩, ⟨0, 5, FutStatus.pending⟩],
        true, true, false, []⟩).brainCache none =
      (UpdateOutcome.computing 42, none) := by
  have h := failed_volume_never_cached
    ⟨0, 50, [], none, [⟨0, 42, FutStatus.failed⟩, ⟨0, 5, FutStatus.pending⟩],
      true, true, false, []⟩ 42 3 (by decide) rfl
  refine ⟨h.1, ?_⟩
  have h5 := h.2.2.2.2 42 1 0 1 50 none
    (by norm_num [frameToRunTime, runTimeToVolume, pyInt]) (by norm_num)
  exact h5

/-- Universe of Python exception values for the replay path.  The spec names
a ReplayDecodeError class; replay.py defines no such class, so the model of
the code never constructs the replayDecodeError value, it only propagates
whatever the producer raised. -/
inductive PyErr where
  | replayDecodeError : String → PyErr
  | producerError : String → PyErr
deriving DecidableEq

/-- One step yielded by replay_bk2 as consumed by get_variables_from_replay:
frame, keys, the info dict of the annotations, the audio chunk and its rate. -/
structure ReplayStep where
  frame : List ℕ
  keys : List Bool
  info : List (String × ℤ)
  audioChunk : List ℤ
  audioRate : ℕ
deriving DecidableEq

/-- Behaviour of the opaque producer driven by replay_bk2: construction of
retro.Movie / retro.make may raise; otherwise it yields a list of steps and
may raise mid-stream afterwards. -/
structure ReplayProducer where
  constructionError : Option PyErr
  steps : List ReplayStep
  midStreamError : Option PyErr
deriving DecidableEq

/-- Local accumulators of the loop in get_variables_from_replay. -/
structure CaptureAcc where
  replay_keys : List (List Bool)
  replay_info : List (List (String × ℤ))
  replay_frames : List (List ℕ)
  audio_chunks : List (List ℤ)
  audio_rate : ℕ
deriving DecidableEq

/-- Loop body of get_variables_from_replay: append keys, info and frame,
append the audio chunk only when it is nonempty, and overwrite audio_rate
with the rate of the current chunk. -/
def captureLoop : List ReplayStep → CaptureAcc → CaptureAcc
  | [], acc => acc
  | st :: rest, acc =>
    captureLoop rest
      { replay_keys := acc.replay_keys ++ [st.keys],
        replay_info := acc.replay_info ++ [st.info],
        replay_frames := acc.replay_frames ++ [st.frame],
        audio_chunks := if st.audioChunk.isEmpty then acc.audio_chunks
                        else acc.audio_chunks ++ [st.audioChunk],
        audio_rate := st.audioRate }

/-- assemble_audio of replay.py: concatenate the collected chunks; with no
chunks the result is the empty waveform. -/
def assembleAudio (chunks : List (List ℤ)) : List ℤ := chunks.flatten

/-- get_variables_from_replay driving replay_bk2: if the producer cannot be
constructed the exception propagates; if it raises mid-stream the exception
propagates and the locals already captured are discarded; on success the
captured structures and the assembled audio are returned (the base variant
performs no writes, so the returned structures are its only effect). -/
def getVariablesFromReplay (p : ReplayProducer) :
    Except PyErr (CaptureAcc × List ℤ) :=
  match p.constructionError with
  | some e => .error e
  | none =>
    let acc := captureLoop p.steps ⟨[], [], [], [], 0⟩
    match p.midStreamError with
    | some e => .error e
    | none => .ok (acc, assembleAudio acc.audio_chunks)

/-- Discriminator: did the extraction fail with the spec's ReplayDecodeError? -/
def isReplayDecodeFailure : Except PyErr (CaptureAcc × List ℤ) → Bool
  | .error (.replayDecodeError _) => true
  | _ => false

/-- C7 counterexample: a producer whose construction fails with the
underlying library error (unknown game format) makes the extraction fail
with that same propagated error, not with a ReplayDecodeError; replay.py
defines no ReplayDecodeError class. -/
theorem replay_decode_error_counterexample :
    getVariablesFromReplay ⟨some (.producerError "unknown game"), [], none⟩ =
      .error (.producerError "unknown game") ∧
    isReplayDecodeFailure
      (getVariablesFromReplay
        ⟨some (.producerError "unknown game"), [], none⟩) = false := by
  exact ⟨rfl, rfl⟩

/-- C7 (amended): if the producer cannot be constructed or raises mid-stream,
the extraction fails by propagating that same underlying exception (a
ReplayDecodeError can only appear if the producer itself raised one); the
error result carries none of the partially captured data; on success the
base variant returns exactly the captured structures and assembled audio. -/
theorem replay_extraction_error_propagation (p : ReplayProducer) :
    (∀ e, p.constructionError = some e →
      getVariablesFromReplay p = .error e) ∧
    (∀ e, p.constructionError = none → p.midStreamError = some e →
      getVariablesFromReplay p = .error e) ∧
    (p.constructionError = none → p.midStreamError = none →
      getVariablesFromReplay p =
        .ok (captureLoop p.steps ⟨[], [], [], [], 0⟩,
          assembleAudio (captureLoop p.steps ⟨[], [], [], [], 0⟩).audio_chunks)) ∧
    (∀ msg, getVariablesFromReplay p =
        Except.error (PyErr.replayDecodeError msg) →
      p.constructionError = some (.replayDecodeError msg) ∨
        p.midStreamError = some (.replayDecodeError msg)) := by
  refine ⟨?_, ?_, ?_, ?_⟩
  · intro e h
    simp [getVariablesFromReplay, h]
  · intro e h1 h2
    simp [getVariablesFromReplay, h1, h2]
  · intro h1 h2
    simp [getVariablesFromReplay, h1, h2]
  · intro msg h
    match hc : p.constructionError with
    | some e =>
      simp only [getVariablesFromReplay, hc] at h
      cases h
      exact Or.inl rfl
    | none =>
      match hm : p.midStreamError with
      | some e =>
        simp only [getVariablesFromReplay, hc, hm] at h
        cases h
        exact Or.inr rfl
      | none =>
        simp [getVariablesFromReplay, hc, hm] at h

/-- C7 witness: a mid-stream producer failure propagates unchanged and a
clean run returns the captured data; concrete one-step producers. -/
theorem replay_extraction_error_propagation_witness :
    getVariablesFromReplay
      ⟨none, [⟨[7], [true], [("score", 5)], [1, 2], 44100⟩],
        some (.producerError "emulator crashed")⟩ =
      .error (.producerError "emulator crashed") ∧
    getVariablesFromReplay
      ⟨none, [⟨[7], [true], [("score", 5)], [1, 2], 44100⟩], none⟩ =
      .ok (⟨[[true]], [[("score", 5)]], [[7]], [[1, 2]], 44100⟩, [1, 2]) := by
  have h1 := (replay_extraction_error_propagation
    ⟨none, [⟨[7], [true], [("score", 5)], [1, 2], 44100⟩],
      some (.producerError "emulator crashed")⟩).2.1
    (.producerError "emulator crashed") rfl rfl
  have h2 := (replay_extraction_error_propagation
    ⟨none, [⟨[7], [true], [("score", 5)], [1, 2], 44100⟩], none⟩).2.2.1
    rfl rfl
  refine ⟨h1, ?_⟩
  rw [h2]
  rfl

/-- One row of a desc-annotated_events.tsv table as read by
load_annotated_events; strings are character lists so that the substring
matching of pandas str.contains is executable. -/
structure EventRow where
  trial_type : List Char
  stim_file : Option (List Char)
  onset : ℚ
  duration : ℚ
deriving DecidableEq

/-- Row of the DataFrame returned by load_annotated_events: the input
columns with the onset re-homed and the added display_duration column. -/
structure AnnotatedRow where
  trial_type : List Char
  stim_file : Option (List Char)
  onset : ℚ
  duration : ℚ
  display_duration : ℚ
deriving DecidableEq

/-- Marker trial type delimiting replays in a run-scoped events table. -/
def gameMarker : List Char := "gym-retro_game".toList

/-- Substring test modelling pandas str.contains(needle, na=False) for a
needle without regex metacharacter effects. -/
def containsSub : List Char → List Char → Bool
  | [], needle => needle.isEmpty
  | c :: t, needle => needle.isPrefixOf (c :: t) || containsSub t needle

/-- Mask of load_annotated_events:
(df.trial_type == 'gym-retro_game') & (df.stim_file.str.contains(bk2, na=False)). -/
def rowMatches (bk2_filename : List Char) (r : EventRow) : Bool :=
  (r.trial_type == gameMarker) &&
    (match r.stim_file with
      | none => false
      | some s => containsSub s bk2_filename)

/-- Index of the first row satisfying p (pandas df[mask].index[0] /
idxmax over a boolean mask). -/
def findIdxQ (p : α → Bool) : List α → Option ℕ
  | [] => none
  | a :: t => if p a then some 0 else (findIdxQ p t).map (· + 1)

/-- Display-duration normalization of load_annotated_events:
lambda d: 0.5 if d == 0 else d. -/
def displayDuration (d : ℚ) : ℚ := if d = 0 then 1/2 else d

/-- Onset re-homing plus display_duration column, applied to every row of
the returned slice: onset becomes onset - replay_onset. -/
def rehomeRow (replay_onset : ℚ) (r : EventRow) : AnnotatedRow :=
  { trial_type := r.trial_type, stim_file := r.stim_file,
    onset := r.onset - replay_onset, duration := r.duration,
    display_duration := displayDuration r.duration }

/-- load_annotated_events of gui/utils.py: locate the first gym-retro_game
row whose stim_file contains the replay filename; slice df.loc[g : h-1]
where h is the next gym-retro_game row (or df.loc[g:] when none); re-home
all onsets by the marker row's onset and add display_duration. -/
def loadAnnotatedEvents (table : List EventRow) (bk2_filename : List Char) :
    List AnnotatedRow :=
  match findIdxQ (rowMatches bk2_filename) table with
  | none => []
  | some g =>
    let replay_onset := (((table.drop g).head?).map (fun r => r.onset)).getD 0
    let slice :=
      match findIdxQ (fun r => r.trial_type == gameMarker)
          (table.drop (g + 1)) with
      | some k => (table.drop g).take (k + 1)
      | none => table.drop g
    slice.map (rehomeRow replay_onset)

/-- Reading of the claim sentence for C9: return only the rows strictly
following the matched marker row, up to (not including) the next marker row,
re-homed.  Written from the spec's words, to be compared with
loadAnnotatedEvents. -/
def specFollowingRows (table : List EventRow) (bk2_filename : List Char) :
    List AnnotatedRow :=
  match findIdxQ (rowMatches bk2_filename) table with
  | none => []
  | some g =>
    let replay_onset := (((table.drop g).head?).map (fun r => r.onset)).getD 0
    ((table.drop (g + 1)).takeWhile
        (fun r => !(r.trial_type == gameMarker))).map (rehomeRow replay_onset)

/-- Initial slice up to the first row satisfying p (whole list if none). -/
def sliceUpTo (p : α → Bool) (l : List α) : List α :=
  match findIdxQ p l with
  | some k => l.take k
  | none => l

theorem sliceUpTo_eq_takeWhile (p : α → Bool) (l : List α) :
    sliceUpTo p l = l.takeWhile (fun a => !(p a)) := by
  induction l with
  | nil => rfl
  | cons a t ih =>
    rw [sliceUpTo] at ih
    cases hpa : p a with
    | true => simp [sliceUpTo, findIdxQ, hpa, List.takeWhile_cons]
    | false =>
      cases hf : findIdxQ p t with
      | none =>
        rw [hf] at ih
        have ih2 : t = List.takeWhile (fun a => !(p a)) t := by simpa using ih
        simp [sliceUpTo, findIdxQ, hpa, hf, List.takeWhile_cons, ← ih2]
      | some k =>
        rw [hf] at ih
        have ih2 : List.take k t = List.takeWhile (fun a => !(p a)) t := by
          simpa using ih
        simp [sliceUpTo, findIdxQ, hpa, hf, List.takeWhile_cons, ← ih2]

theorem code_slice_eq (table : List EventRow) (g : ℕ) (r0 : EventRow)
    (p : EventRow → Bool) (hr0 : (table.drop g).head? = some r0) :
    (match findIdxQ p (table.drop (g + 1)) with
      | some k => (table.drop g).take (k + 1)
      | none => table.drop g) =
    r0 :: (table.drop (g + 1)).takeWhile (fun r => !(p r)) := by
  have hcons : table.drop g = r0 :: table.drop (g + 1) := by
    conv_lhs => rw [← List.cons_head?_tail hr0]
    rw [List.tail_drop]
  have hslice := sliceUpTo_eq_takeWhile p (table.drop (g + 1))
  rw [sliceUpTo] at hslice
  cases hf : findIdxQ p (table.drop (g + 1)) with
  | none =>
    rw [hf] at hslice
    have hslice2 : table.drop (g + 1) =
        (table.drop (g + 1)).takeWhile (fun a => !(p a)) := by simpa using hslice
    dsimp only
    rw [hcons]
    conv_lhs => rw [hslice2]
  | some k =>
    rw [hf] at hslice
    have hslice2 : List.take k (table.drop (g + 1)) =
        (table.drop (g + 1)).takeWhile (fun a => !(p a)) := by simpa using hslice
    dsimp only
    rw [hcons, List.take_succ_cons, hslice2]

/-- C9 (amended): the lookup locates the first gym-retro_game row whose
stim_file contains the replay filename; the returned list is that marker row
itself followed by the subsequent rows up to (not including) the next
gym-retro_game row, every onset re-homed by subtracting the marker row's
onset; if no matching marker row exists the result is empty. -/
theorem replay_event_slicing (table : List EventRow) (bk2 : List Char) :
    (findIdxQ (rowMatches bk2) table = none →
      loadAnnotatedEvents table bk2 = []) ∧
    (∀ g r0, findIdxQ (rowMatches bk2) table = some g →
      (table.drop g).head? = some r0 →
      loadAnnotatedEvents table bk2 =
        rehomeRow r0.onset r0 ::
          ((table.drop (g + 1)).takeWhile
            (fun r => !(r.trial_type == gameMarker))).map
              (rehomeRow r0.onset)) := by
  constructor
  · intro h
    simp [loadAnnotatedEvents, h]
  · intro g r0 hg hr0
    simp only [loadAnnotatedEvents, hg, hr0, Option.map_some', Option.getD_some]
    rw [code_slice_eq table g r0 (fun r => r.trial_type == gameMarker) hr0]
    rw [List.map_cons]

/-- Concrete replay filename for the C9 scenario. -/
def demoBk2 : List Char := "sub-01_rep-000.bk2".toList

/-- Marker row of the C9 scenario: the replay's gym-retro_game row at
onset 2 s, referencing the replay file. -/
def demoMarkerRow : EventRow :=
  ⟨gameMarker, some ("gamelogs/sub-01_rep-000.bk2".toList), 2, 0⟩

/-- Plain event row of the C9 scenario at run onset 5 s. -/
def demoEventRow : EventRow := ⟨"powerup_appear".toList, none, 5, 1⟩

/-- Two-row events table of the C9 scenario. -/
def demoTable : List EventRow := [demoMarkerRow, demoEventRow]

/-- C9 counterexample: at this concrete table the code returns the marker
row itself (re-homed to onset 0) in addition to the rows following it, so
the output is not the list of rows strictly following the marker described
by the claim (the two lists even have different lengths). -/
theorem replay_event_slicing_counterexample :
    loadAnnotatedEvents demoTable demoBk2 ≠
      specFollowingRows demoTable demoBk2 := by
  intro h
  have h1 : (loadAnnotatedEvents demoTable demoBk2).length = 2 := rfl
  have h2 : (specFollowingRows demoTable demoBk2).length = 1 := rfl
  rw [h, h2] at h1
  exact absurd h1 (by decide)

/-- C9 witness: on the concrete two-row table the slicing equation of the
amended claim holds, and an unmatched filename yields the empty list. -/
theorem replay_event_slicing_witness :
    loadAnnotatedEvents demoTable demoBk2 =
      rehomeRow demoMarkerRow.onset demoMarkerRow ::
        ((demoTable.drop 1).takeWhile
          (fun r => !(r.trial_type == gameMarker))).map
            (rehomeRow demoMarkerRow.onset) ∧
    loadAnnotatedEvents demoTable ("nonexistent.bk2".toList) = [] := by
  have h := replay_event_slicing demoTable demoBk2
  have h0 := replay_event_slicing demoTable ("nonexistent.bk2".toList)
  exact ⟨h.2 0 demoMarkerRow rfl rfl, h0.1 rfl⟩

/-- EventsWidget.update_position activity test for one event row:
active iff onset <= current_time < onset + display duration. -/
def eventActiveAt (r : AnnotatedRow) (current_time : ℚ) : Prop :=
  r.onset ≤ current_time ∧ current_time < r.onset + r.display_duration

/-- C8: the display-duration normalization maps a zero duration to 0.5 s and
keeps any nonzero duration unchanged; consequently an event row at onset
3.0 s whose display duration comes from a zero duration is active exactly
for 3.0 <= t < 3.5. -/
theorem zero_duration_display (d : ℚ) (hd : d ≠ 0) (r : AnnotatedRow)
    (ho : r.onset = 3) (hdd : r.display_duration = displayDuration 0) :
    displayDuration 0 = 1/2 ∧ displayDuration d = d ∧
    (∀ t : ℚ, eventActiveAt r t ↔ 3 ≤ t ∧ t < 7/2) := by
  refine ⟨by norm_num [displayDuration], by simp [displayDuration, hd], ?_⟩
  intro t
  simp only [eventActiveAt, ho, hdd, displayDuration]
  norm_num

/-- C8 witness: duration 2 is kept, duration 0 becomes 0.5, and the
zero-duration event at onset 3 is active at t = 3.25. -/
theorem zero_duration_display_witness :
    displayDuration 0 = 1/2 ∧ displayDuration 2 = 2 ∧
    (eventActiveAt ⟨[], none, 3, 0, displayDuration 0⟩ (13/4) ↔
      (3:ℚ) ≤ 13/4 ∧ (13/4:ℚ) < 7/2) := by
  have h := zero_duration_display 2 (by norm_num)
    ⟨[], none, 3, 0, displayDuration 0⟩ rfl rfl
  exact ⟨h.1, h.2.1, h.2.2 (13/4)⟩

/-- np.nanmean over a NaN-free window: sum divided by length. -/
def nanmean (data : List ℚ) : ℚ := data.sum / data.length

/-- Square of np.nanstd over a NaN-free window: the population variance. -/
def nanvarPop (data : List ℚ) : ℚ :=
  (data.map (fun x => (x - nanmean data)^2)).sum / data.length

/-- Window normalization of PhysioWidget.update_position:
if data_std > 0 then (data - data_mean) / data_std else data - data_mean.
np.nanstd returns the nonnegative square root of nanvarPop, irrational in
general, so data_std is a parameter tied to the window by the hypotheses
data_std >= 0 and data_std^2 = nanvarPop data. -/
def normalizeWindow (data : List ℚ) (data_std : ℚ) : List ℚ :=
  if 0 < data_std then data.map (fun x => (x - nanmean data) / data_std)
  else data.map (fun x => x - nanmean data)

/-- Marker normalization of PhysioWidget._update_events: the same guard
applied to one sampled value against the window statistics. -/
def normalizeEventVal (val : ℚ) (window_data : List ℚ) (data_std : ℚ) : ℚ :=
  if 0 < data_std then (val - nanmean window_data) / data_std
  else val - nanmean window_data

/-- C10: the per-window normalization never divides by zero: the z-score
branch runs only when the standard deviation is strictly positive
(equivalently the window variance is strictly positive, so the divisor is
nonzero), and a constant-valued window is only mean-centered; the identical
guard governs the event-marker y-position normalization. -/
theorem physio_normalization_guard (data : List ℚ) (data_std : ℚ)
    (hnn : 0 ≤ data_std) (hsq : data_std^2 = nanvarPop data) :
    (0 < data_std ↔ 0 < nanvarPop data) ∧
    ((∀ x ∈ data, x = nanmean data) →
      normalizeWindow data data_std = data.map (fun x => x - nanmean data) ∧
      ∀ val, normalizeEventVal val data data_std = val - nanmean data) ∧
    (0 < data_std → data_std ≠ 0) := by
  have hiff : 0 < data_std ↔ 0 < nanvarPop data := by
    constructor
    · intro h
      rw [← hsq]
      exact pow_pos h 2
    · intro h
      rcases lt_or_eq_of_le hnn with h2 | h2
      · exact h2
      · exfalso
        have hv0 : nanvarPop data = 0 := by
          rw [← hsq, ← h2]
          norm_num
        rw [hv0] at h
        exact lt_irrefl 0 h
  refine ⟨hiff, ?_, fun h => ne_of_gt h⟩
  intro hconst
  have hv : nanvarPop data = 0 := by
    rw [nanvarPop]
    have hz : (data.map (fun x => (x - nanmean data)^2)).sum = 0 := by
      apply List.sum_eq_zero
      intro y hy
      obtain ⟨x, hx, rfl⟩ := List.mem_map.mp hy
      rw [hconst x hx]
      ring
    rw [hz, zero_div]
  have hs0 : data_std = 0 := by
    have h2 : data_std^2 = 0 := by rw [hsq, hv]
    exact (pow_eq_zero_iff (by norm_num)).mp h2
  constructor
  · simp [normalizeWindow, hs0]
  · intro val
    simp [normalizeEventVal, hs0]

/-- C10 witness: the constant window [1, 1, 1] (std 0) is only mean-centered
in both the curve and the event-marker normalization, and for the
non-constant window [0, 2] (std 1) the positive-variance condition of the
z-score branch holds. -/
theorem physio_normalization_guard_witness :
    normalizeWindow [1, 1, 1] 0 = [0, 0, 0] ∧
    normalizeEventVal 1 [1, 1, 1] 0 = 0 ∧
    (0 < (1:ℚ) ↔ 0 < nanvarPop [0, 2]) := by
  have h1 := physio_normalization_guard [1, 1, 1] 0 (le_refl 0)
    (by norm_num [nanvarPop, nanmean])
  have h2 := physio_normalization_guard [0, 2] 1 (by norm_num)
    (by norm_num [nanvarPop, nanmean])
  have hconst : ∀ x ∈ ([1, 1, 1] : List ℚ), x = nanmean [1, 1, 1] := by
    norm_num [nanmean]
  obtain ⟨hw, he⟩ := h1.2.1 hconst
  refine ⟨?_, ?_, h2.1⟩
  · rw [hw]
    norm_num [nanmean]
  · rw [he 1]
    norm_num [nanmean]
